import Mathlib

/-!
Verification development for the Brainers ledger engine (`ets.py`).

The Python source keeps all monetary quantities as `fractions.Fraction`;
we embed them as `ℚ`.  Addresses and token identifiers are strings.
Python `dict`s (which preserve insertion order) are embedded as
association lists with order-preserving update and deletion.
`defaultdict(Fraction)` account tables, whose absent entries read as
zero, are embedded as total functions into `ℚ`.
-/

namespace Ets

/-- Account addresses are strings in the source. -/
abbrev Address := String

/-- Token identifiers are strings; the native asset uses the literal "BRAINERS". -/
abbrev TokenId := String

/-- Transaction kind tags.  Each constructor stands for the string literal of
the same spelling that the source stores in `transaction_type`. -/
inductive TxType where
  | genesis
  | transfer
  | reward
  | create_token
  | stake
  | unstake
  | gift_validator
  | burn
  | execute_smart_contract
  | add_liquidity
  | remove_liquidity
  | place_order
  | execute_trade
  | chat_message
  | create_ttf
  | open_ttf_position
  | close_ttf_position
  | liquidate_ttf_position
  | create_tuv
  | transfer_tuv
  | claim_tuv
  | create_smart_contract
deriving DecidableEq, Repr

/-- A transaction (`Transaction.__init__`).  `dataToken` models the
`data.get('token')` entry consulted by `add_transaction` and
`apply_transaction`; `sigOk` abstracts the outcome of
`Transaction.verify_signature` under the key `verify_transaction` derives for
the sender (the SHA-256 hash, wall-clock timestamp and raw ECDSA signature
bytes are not modelled). -/
structure Transaction where
  sender : Address
  recipient : Address
  amount : ℚ
  transaction_type : TxType
  fee : ℚ
  dataToken : Option TokenId
  sigOk : Bool
deriving DecidableEq

/-- Global constant `MAX_TRANSACTIONS_PER_BLOCK = 10000`. -/
def MAX_TRANSACTIONS_PER_BLOCK : ℕ := 10000

/-- Global constant `INITIAL_BRAINERS_SUPPLY = Fraction(5000000000, 1)`. -/
def INITIAL_BRAINERS_SUPPLY : ℚ := 5000000000

/-- Global constant `MIN_FEE = Fraction(1, 1000)`. -/
def MIN_FEE : ℚ := 1/1000

/-- Global constant `MAX_FEE = Fraction(1, 100)`. -/
def MAX_FEE : ℚ := 1/100

/-- Global constant `GIFT_VALIDATOR_BURN = Fraction(6000, 1)`. -/
def GIFT_VALIDATOR_BURN : ℚ := 6000

/-- The zero address `"0" * 40`, used as sender of genesis and reward
transactions and as the burn sink. -/
def zeroAddress : Address := "0000000000000000000000000000000000000000"

/-- A validator record (`Validator.__init__`).  `performance_history` keeps
the performance values only; the source pairs each entry with
`time.time()`, which is not modelled. -/
structure Validator where
  address : Address
  stake : ℚ
  is_gift : Bool
  last_block_validated : ℕ
  reputation : ℚ
  is_active : Bool
  total_rewards : ℚ
  performance_history : List ℚ
deriving DecidableEq

/-- `Validator.__init__(address, stake, is_gift)`: reputation starts at 1,
the validator starts active with no rewards and empty history. -/
def Validator.init (address : Address) (stake : ℚ) (is_gift : Bool) : Validator :=
  { address := address, stake := stake, is_gift := is_gift,
    last_block_validated := 0, reputation := 1, is_active := true,
    total_rewards := 0, performance_history := [] }

/-- `Validator.update_reputation`: exponential smoothing
`reputation * 9/10 + performance * 1/10`, append to the history and pop the
oldest entry once the history exceeds 1000 entries. -/
def Validator.update_reputation (v : Validator) (performance : ℚ) : Validator :=
  let hist := v.performance_history ++ [performance]
  { v with
      reputation := v.reputation * (9/10) + performance * (1/10),
      performance_history := if hist.length > 1000 then hist.tail else hist }

/-- `Validator.add_reward`: adds to `total_rewards`.  (Defined in the source
but, as proved below, never invoked by `create_block`.) -/
def Validator.add_reward (v : Validator) (amount : ℚ) : Validator :=
  { v with total_rewards := v.total_rewards + amount }

/-- World-state balances: the source `accounts` is a
`defaultdict(lambda: defaultdict(Fraction))` from address and token id to a
rational where absent entries read as zero; embedded as a total function. -/
abbrev Accounts := Address → TokenId → ℚ

/-- Point update of a balance table. -/
def updBal (acc : Accounts) (a : Address) (t : TokenId) (v : ℚ) : Accounts :=
  fun a' t' => if a' = a ∧ t' = t then v else acc a' t'

/-- Lookup in an insertion-ordered dictionary (Python `d[k]` / `k in d`). -/
def dictLookup {β : Type} (d : List (String × β)) (k : String) : Option β :=
  (d.find? (fun p => p.1 == k)).map (fun p => p.2)

/-- Python `d[k] = v`: overwrite in place when the key exists, otherwise
append, preserving insertion order. -/
def dictSet {β : Type} (d : List (String × β)) (k : String) (v : β) : List (String × β) :=
  if (d.find? (fun p => p.1 == k)).isSome
  then d.map (fun p => if p.1 == k then (k, v) else p)
  else d ++ [(k, v)]

/-- In-place mutation of the value stored under an existing key. -/
def dictUpdate {β : Type} (d : List (String × β)) (k : String) (f : β → β) :
    List (String × β) :=
  d.map (fun p => if p.1 == k then (p.1, f p.2) else p)

/-- Python `del d[k]`, preserving the order of the remaining entries. -/
def dictRemove {β : Type} (d : List (String × β)) (k : String) : List (String × β) :=
  d.filter (fun p => !(p.1 == k))

/-- A block.  Only the fields the claims depend on are carried; the
SHA-256 `merkle_root`, `hash`, `previous_hash` and the wall-clock
`timestamp` are not modelled. -/
structure Block where
  index : ℕ
  transactions : List Transaction
  validator : Address
deriving DecidableEq

/-- The mutable state of a `Blockchain` instance: the chain, the two
transaction lists (`self.mempool`, which `add_transaction` appends to, and
`self.pending_transactions`, which nothing ever appends to), the account
table, the validator registry, and `self.min_stake = Fraction(10000, 1)`.
The token registry, contract table and the DEX/TTF/TUV sub-ledgers are
modelled separately with their own operations. -/
structure ChainState where
  chain : List Block
  mempool : List Transaction
  pending_transactions : List Transaction
  accounts : Accounts
  validators : List (Address × Validator)
  min_stake : ℚ

/-- `Blockchain.__init__`: empty chain, empty pools, empty account and
validator tables, `min_stake = 10000`. -/
def initialState : ChainState :=
  { chain := [], mempool := [], pending_transactions := [],
    accounts := fun _ _ => 0, validators := [], min_stake := 10000 }

/-- `Blockchain.calculate_transaction_fee`: the fee is
`min(max(MIN_FEE * (3/2)^(len(self.pending_transactions) // 1000), MIN_FEE), MAX_FEE)`.
Note the source reads `self.pending_transactions`, not `self.mempool`. -/
def calculate_transaction_fee (pending_transactions : List Transaction) : ℚ :=
  let base_fee := MIN_FEE
  let fee_multiplier : ℚ := (3/2) ^ (pending_transactions.length / 1000)
  min (max (base_fee * fee_multiplier) MIN_FEE) MAX_FEE

/-- The token a transaction moves: `transaction.data.get('token', 'BRAINERS')`. -/
def txToken (tx : Transaction) : TokenId := tx.dataToken.getD "BRAINERS"

/-- `Blockchain.verify_transaction`: genesis transactions verify
unconditionally; for any other kind the outcome of verifying the carried
signature under the key derived for the sender is abstracted as `sigOk`. -/
def verify_transaction (tx : Transaction) : Bool :=
  if tx.transaction_type = TxType.genesis then true else tx.sigOk

/-- `Blockchain.add_transaction`: reject a non-genesis transaction when the
sender's balance of the transaction's token is below `amount + fee`; reject
when `verify_transaction` fails; otherwise append to `self.mempool`.  Returns
the success flag together with the updated state. -/
def add_transaction (st : ChainState) (tx : Transaction) : Bool × ChainState :=
  if tx.transaction_type ≠ TxType.genesis ∧
      st.accounts tx.sender (txToken tx) < tx.amount + tx.fee then
    (false, st)
  else if ¬ (verify_transaction tx = true) then
    (false, st)
  else
    (true, { st with mempool := st.mempool ++ [tx] })

/-- `Blockchain.apply_transaction`, restricted to the dispatch arms the
claims exercise: `transfer`/`genesis`/`reward`, `stake`, `unstake`,
`gift_validator` and `burn`.  The remaining arms are omitted and left as the
identity here, which is an under-approximation, not a faithful rendering: in
the source the `create_token` arm also writes the new token's full supply
into `accounts[sender][new_token.address]` (an address generated from
wall-clock time), and the arms re-entering the DEX/TTF/TUV sub-modules can
reach code that mutates `accounts` (for example `place_order` leads to
`execute_trade`).  Those sub-module effects are modelled by the stand-alone
`execute_trade`, `match_orders` and `claim_tuv` operations below, and no
theorem in this file drives `apply_transaction` itself through an omitted
arm. -/
def apply_transaction (st : ChainState) (tx : Transaction) : ChainState :=
  let token := txToken tx
  if tx.transaction_type = TxType.transfer ∨ tx.transaction_type = TxType.genesis ∨
      tx.transaction_type = TxType.reward then
    let acc1 := updBal st.accounts tx.sender token
      (st.accounts tx.sender token - (tx.amount + tx.fee))
    let acc2 := updBal acc1 tx.recipient token (acc1 tx.recipient token + tx.amount)
    { st with accounts := acc2 }
  else if tx.transaction_type = TxType.stake then
    let acc1 := updBal st.accounts tx.sender "BRAINERS"
      (st.accounts tx.sender "BRAINERS" - (tx.amount + tx.fee))
    let validators' :=
      match dictLookup st.validators tx.sender with
      | none => st.validators ++ [(tx.sender, Validator.init tx.sender tx.amount false)]
      | some _ => dictUpdate st.validators tx.sender
          (fun v => { v with stake := v.stake + tx.amount })
    { st with accounts := acc1, validators := validators' }
  else if tx.transaction_type = TxType.unstake then
    match dictLookup st.validators tx.sender with
    | none => st
    | some _ =>
      let validators1 := dictUpdate st.validators tx.sender
        (fun v => { v with stake := v.stake - tx.amount })
      let acc1 := updBal st.accounts tx.sender "BRAINERS"
        (st.accounts tx.sender "BRAINERS" + (tx.amount - tx.fee))
      let validators2 := dictUpdate validators1 tx.sender
        (fun v => if v.stake < st.min_stake then { v with is_active := false } else v)
      { st with accounts := acc1, validators := validators2 }
  else if tx.transaction_type = TxType.gift_validator then
    let acc1 := updBal st.accounts tx.sender "BRAINERS"
      (st.accounts tx.sender "BRAINERS" - (GIFT_VALIDATOR_BURN + tx.fee))
    let validators' :=
      dictSet st.validators tx.recipient (Validator.init tx.recipient GIFT_VALIDATOR_BURN true)
    { st with accounts := acc1, validators := validators' }
  else if tx.transaction_type = TxType.burn then
    let acc1 := updBal st.accounts tx.sender token
      (st.accounts tx.sender token - (tx.amount + tx.fee))
    { st with accounts := acc1 }
  else
    st

/-- The eligible set of `Blockchain.select_validator`:
`[v for v in self.validators.values() if v.stake >= self.min_stake and v.is_active]`. -/
def eligible_validators (st : ChainState) : List Validator :=
  (st.validators.map (fun p => p.2)).filter
    (fun v => decide (st.min_stake ≤ v.stake) && v.is_active)

/-- The weighted total `sum(v.stake * v.reputation for v in eligible_validators)`. -/
def total_stake (eligible : List Validator) : ℚ :=
  (eligible.map (fun v => v.stake * v.reputation)).sum

/-- The cumulative-weight loop of `select_validator`: walk the eligible list
accumulating `current_point += stake * reputation` and return the first
validator with `current_point >= selection_point`; fall through to the
fallback (`eligible_validators[-1]`) when the loop ends. -/
def selectGo (selection_point current_point : ℚ) (fallback : Option Validator) :
    List Validator → Option Validator
  | [] => fallback
  | v :: rest =>
    let current' := current_point + v.stake * v.reputation
    if selection_point ≤ current' then some v else selectGo selection_point current' fallback rest

/-- `Blockchain.select_validator`.  The source draws
`selection_point = random.uniform(0, float(total_stake))`; the drawn point is
taken here as the parameter `selection_point`, abstracting the random draw
(and its float rounding), so the claims quantify over the point. -/
def select_validator (st : ChainState) (selection_point : ℚ) : Option Validator :=
  let eligible := eligible_validators st
  if eligible.isEmpty then none
  else selectGo selection_point 0 eligible.getLast? eligible

/-- `Blockchain.calculate_block_reward` returns `Fraction(1, 1)`. -/
def calculate_block_reward : ℚ := 1

/-- `Blockchain.create_block`.  Returns `None` without touching the state when
no validator is eligible; otherwise takes up to `MAX_TRANSACTIONS_PER_BLOCK`
transactions from the head of the mempool, applies them in order, appends the
block, drops the included transactions from the mempool, applies a reward
transaction `(zero address → validator, amount = block reward, fee = 0)`, and
updates the chosen validator's reputation (performance 1) and
`last_block_validated`.  The block's wall-clock timestamp and hashes, and the
database write of `save_block`, are not modelled. -/
def create_block (st : ChainState) (selection_point : ℚ) : Option Block × ChainState :=
  match select_validator st selection_point with
  | none => (none, st)
  | some validator =>
    let transactions := st.mempool.take MAX_TRANSACTIONS_PER_BLOCK
    let new_block : Block :=
      { index := st.chain.length, transactions := transactions, validator := validator.address }
    let st1 := transactions.foldl apply_transaction st
    let st2 := { st1 with
        chain := st1.chain ++ [new_block],
        mempool := st1.mempool.drop MAX_TRANSACTIONS_PER_BLOCK }
    let reward_tx : Transaction :=
      { sender := zeroAddress, recipient := validator.address,
        amount := calculate_block_reward, transaction_type := TxType.reward,
        fee := 0, dataToken := none, sigOk := false }
    let st3 := apply_transaction st2 reward_tx
    let st4 := { st3 with
        validators := dictUpdate st3.validators validator.address
          (fun v => { v.update_reputation 1 with last_block_validated := new_block.index }) }
    (some new_block, st4)

/-- The six genesis distribution categories and their fractions of the total
supply, in the exact order of `create_initial_distribution`. -/
def distributions : List (String × ℚ) :=
  [("Rezerva", 742/10000),
   ("Lichiditate", 19/100),
   ("Rez_stable_coin", 19/100),
   ("Investitori_P", 20/100),
   ("Garantie", 19/100),
   ("Farming", 558/10000)]

/-- A genesis transaction as built by `create_initial_distribution`:
sender is the zero address, fee 0, empty data, empty signature. -/
def genesisTransaction (recipient : Address) (amount : ℚ) : Transaction :=
  { sender := zeroAddress, recipient := recipient, amount := amount,
    transaction_type := TxType.genesis, fee := 0, dataToken := none, sigOk := false }

/-- `Blockchain.create_initial_distribution`: for each category, credit
`total_supply * percentage` of BRAINERS directly to a freshly generated
wallet and record a genesis transaction for it.  The six freshly generated
(random) wallet addresses are taken as the parameter `wallets`. -/
def create_initial_distribution (total_supply : ℚ) (wallets : List Address)
    (acc : Accounts) : List Transaction × Accounts :=
  (distributions.zip wallets).foldl
    (fun r cw =>
      let amount := total_supply * cw.1.2
      (r.1 ++ [genesisTransaction cw.2 amount],
       updBal r.2 cw.2 "BRAINERS" (r.2 cw.2 "BRAINERS" + amount)))
    ([], acc)

/-- `Blockchain.create_genesis_block`: build the initial distribution, wrap
the resulting transactions in block 0 (validator `"0" * 40`), and append it
to the chain.  Note the distribution credits the accounts directly; the
genesis transactions are recorded in the block but not routed through
`apply_transaction`. -/
def create_genesis_block (total_supply : ℚ) (wallets : List Address)
    (st : ChainState) : ChainState :=
  let r := create_initial_distribution total_supply wallets st.accounts
  let genesis_block : Block := { index := 0, transactions := r.1, validator := zeroAddress }
  { st with accounts := r.2, chain := st.chain ++ [genesis_block] }

/-- `Blockchain.reindex_blockchain`: reset the account and validator tables
(the source also resets the token and contract registries, not carried here)
and re-apply every transaction of every block of the chain, in order, through
`apply_transaction`. -/
def reindex_blockchain (st : ChainState) : ChainState :=
  let st0 := { st with accounts := fun _ _ => 0, validators := [] }
  st.chain.foldl (fun s b => b.transactions.foldl apply_transaction s) st0

/-- Order side tags: the source strings "buy" and "sell". -/
inductive OrderType where
  | buy
  | sell
deriving DecidableEq, Repr

/-- A DEX order book entry as built by `DEX.place_order`. -/
structure DexOrder where
  trader : Address
  otype : OrderType
  amount : ℚ
  price : ℚ
  timestamp : ℚ
deriving DecidableEq

/-- `DEX.fee_percentage = Fraction(3, 1000)`. -/
def fee_percentage : ℚ := 3/1000

/-- `DEX.execute_trade`, restricted to its balance updates on
`blockchain.accounts`: the buyer gains `amount` of the token and pays
`brainers_amount + fee/2` BRAINERS; the seller loses `amount` of the token
and receives `brainers_amount - fee/2` BRAINERS, where
`brainers_amount = amount * price` and `fee = brainers_amount * 3/1000`.
The bookkeeping `execute_trade` transaction the source also submits to
`add_transaction` is not modelled. -/
def execute_trade (acc : Accounts) (token_address : TokenId)
    (buyer seller : Address) (amount price : ℚ) : Accounts :=
  let brainers_amount := amount * price
  let fee := brainers_amount * fee_percentage
  let a1 := updBal acc buyer token_address (acc buyer token_address + amount)
  let a2 := updBal a1 buyer "BRAINERS" (a1 buyer "BRAINERS" - (brainers_amount + fee/2))
  let a3 := updBal a2 seller token_address (a2 seller token_address - amount)
  updBal a3 seller "BRAINERS" (a3 seller "BRAINERS" + (brainers_amount - fee/2))

/-- The matching loop of `DEX.match_orders`: while both books are non-empty
and the top buy price is at least the top sell price, trade
`min(buy.amount, sell.amount)` at the midpoint price, decrement both top
orders and pop whichever reaches amount 0. -/
def matchLoop (acc : Accounts) (token_address : TokenId) :
    List DexOrder → List DexOrder → Accounts × List DexOrder × List DexOrder
  | buy_order :: buys, sell_order :: sells =>
    if sell_order.price ≤ buy_order.price then
      let trade_price := (buy_order.price + sell_order.price) / 2
      let trade_amount := min buy_order.amount sell_order.amount
      let acc' := execute_trade acc token_address buy_order.trader sell_order.trader
        trade_amount trade_price
      let buy' : DexOrder := { buy_order with amount := buy_order.amount - trade_amount }
      let sell' : DexOrder := { sell_order with amount := sell_order.amount - trade_amount }
      matchLoop acc' token_address
        (if buy'.amount = 0 then buys else buy' :: buys)
        (if sell'.amount = 0 then sells else sell' :: sells)
    else
      (acc, buy_order :: buys, sell_order :: sells)
  | buys, sells => (acc, buys, sells)
  termination_by buys sells => buys.length + sells.length
  decreasing_by
    rcases min_cases buy_order.amount sell_order.amount with ⟨hm, _⟩ | ⟨hm, _⟩ <;>
      simp only [trade_amount, buy', sell', hm, sub_self] <;> split <;> split <;>
      simp_all [List.length_cons] <;> omega

/-- `DEX.match_orders`: split the book into buy orders sorted by price
descending and sell orders sorted by price ascending (Python `sorted` is
stable), run the matching loop, and write the concatenation of the leftover
books back as the order list. -/
def match_orders (acc : Accounts) (token_address : TokenId)
    (orders : List DexOrder) : Accounts × List DexOrder :=
  let buy_orders :=
    (orders.filter (fun o => o.otype == OrderType.buy)).mergeSort
      (fun a b => decide (b.price ≤ a.price))
  let sell_orders :=
    (orders.filter (fun o => o.otype == OrderType.sell)).mergeSort
      (fun a b => decide (a.price ≤ b.price))
  let r := matchLoop acc token_address buy_orders sell_orders
  (r.1, r.2.1 ++ r.2.2)

/-- A time-locked vault as stored in `TUV.tuvs` by `create_tuv`. -/
structure Tuv where
  creator : Address
  owner : Address
  name : String
  image_url : String
  token_address : TokenId
  token_amount : ℚ
  lock_period : ℚ
  creation_time : ℚ
deriving DecidableEq

/-- `TUV.claim_tuv`: fail (without any state change) when the vault does not
exist or the claimer is not its current owner, or when the current time is
strictly before `creation_time + lock_period`; otherwise delete the vault and
return the release transaction `(tuv address → claimer, amount =
token_amount, fee = 0)` that the source hands to `blockchain.add_transaction`.
The result is the success flag, the updated vault table, and the emitted
transaction if any. -/
def claim_tuv (tuvs : List (String × Tuv)) (tuv_id : String) (claimer : Address)
    (now : ℚ) : Bool × List (String × Tuv) × Option Transaction :=
  match dictLookup tuvs tuv_id with
  | none => (false, tuvs, none)
  | some tuv =>
    if tuv.owner ≠ claimer then (false, tuvs, none)
    else if now < tuv.creation_time + tuv.lock_period then (false, tuvs, none)
    else
      let claim_tuv_tx : Transaction :=
        { sender := "0xBrainersTUV", recipient := claimer, amount := tuv.token_amount,
          transaction_type := TxType.claim_tuv, fee := 0, dataToken := none, sigOk := false }
      (true, dictRemove tuvs tuv_id, some claim_tuv_tx)

/-- Spec-side fee formula, written from the spec's words:
`clamp(v, lo, hi)`, the value `v` forced into the interval `[lo, hi]`. -/
def clampSpec (v lo hi : ℚ) : ℚ := max lo (min v hi)

/-- Spec-side selection rule, written from the claim's words: the first
validator of the list whose cumulative weight (`stake × reputation`,
accumulated in list order on top of `acc`) is at least the drawn point. -/
def firstCumGe (selection_point acc : ℚ) : List Validator → Option Validator
  | [] => none
  | v :: rest =>
    if selection_point ≤ acc + v.stake * v.reputation then some v
    else firstCumGe selection_point (acc + v.stake * v.reputation) rest

/-- Six pairwise-distinct stand-ins for the randomly generated genesis
treasury wallet addresses. -/
def c1Wallets : List Address := ["W0", "W1", "W2", "W3", "W4", "W5"]

/-- The state right after `create_genesis_block` on a fresh chain, for a
given total supply and the six generated wallet addresses. -/
def c1OriginalOf (t : ℚ) (ws : List Address) : ChainState :=
  create_genesis_block t ws initialState

/-- The state `reindex_blockchain` re-derives from the block log of
`c1OriginalOf t ws`. -/
def c1ReplayedOf (t : ℚ) (ws : List Address) : ChainState :=
  reindex_blockchain (c1OriginalOf t ws)

/-- The state right after `create_genesis_block` on a fresh chain. -/
def c1Original : ChainState := c1OriginalOf INITIAL_BRAINERS_SUPPLY c1Wallets

/-- The state after `reindex_blockchain` re-derives state from the block log. -/
def c1Replayed : ChainState := reindex_blockchain c1Original

/-- A valid, funded transfer transaction used to probe mempool admission. -/
def c2Tx : Transaction :=
  { sender := "A", recipient := "B", amount := 1, transaction_type := TxType.transfer,
    fee := 0, dataToken := none, sigOk := true }

/-- A state whose mempool already contains `c2Tx` and whose sender has funds. -/
def c2St : ChainState :=
  { initialState with
      accounts := fun a t => if a = "A" ∧ t = "BRAINERS" then 100 else 0,
      mempool := [c2Tx] }

/-- A reachable-shaped state whose mempool holds 1000 pending transactions
while (as always) `pending_transactions` is empty. -/
def c3St : ChainState :=
  { initialState with mempool := List.replicate 1000 (genesisTransaction "X" 1) }

/-- Scenario S2: account A holds 100 BRAINERS. -/
def c4St : ChainState :=
  { initialState with
      accounts := fun a t => if a = "A" ∧ t = "BRAINERS" then 100 else 0 }

/-- Scenario S2: A transfers 10 BRAINERS to B with fee 1/1000. -/
def c4Tx : Transaction :=
  { sender := "A", recipient := "B", amount := 10, transaction_type := TxType.transfer,
    fee := 1/1000, dataToken := some "BRAINERS", sigOk := true }

/-- A registry with two active validators of stakes 10000 and 20000. -/
def c5St : ChainState :=
  { initialState with
      validators := [("V1", Validator.init "V1" 10000 false),
                     ("V2", Validator.init "V2" 20000 false)] }

/-- Scenario S4: a buy order for 10 T at price 2. -/
def s4Buy : DexOrder :=
  { trader := "B", otype := OrderType.buy, amount := 10, price := 2, timestamp := 0 }

/-- Scenario S4: a sell order for 10 T at price 1. -/
def s4Sell : DexOrder :=
  { trader := "S", otype := OrderType.sell, amount := 10, price := 1, timestamp := 0 }

/-- Scenario S4 variant: a sell order for 25 T at price 1, to be partially
filled by `s4Buy`. -/
def s4SellBig : DexOrder :=
  { trader := "S", otype := OrderType.sell, amount := 25, price := 1, timestamp := 0 }

/-- Scenario S5: a vault locking 500 T for 3600 seconds, created at time 0. -/
def s5Tuv : Tuv :=
  { creator := "C", owner := "C", name := "N", image_url := "", token_address := "T",
    token_amount := 500, lock_period := 3600, creation_time := 0 }

/-- Scenario S5: the vault table holding `s5Tuv`. -/
def s5Tuvs : List (String × Tuv) := [("TUV-1", s5Tuv)]

/-- The release transaction `claim_tuv` builds for scenario S5's vault:
sent by the TUV address to the claimer for the escrowed 500 tokens, with
fee 0, no `token` entry in its data, and no signature. -/
def s5ReleaseTx : Transaction :=
  { sender := "0xBrainersTUV", recipient := "C", amount := 500,
    transaction_type := TxType.claim_tuv, fee := 0, dataToken := none, sigOk := false }

/-- A state where account S holds 100 BRAINERS and no validator exists. -/
def c8St : ChainState :=
  { initialState with
      accounts := fun a t => if a = "S" ∧ t = "BRAINERS" then 100 else 0 }

/-- An admissible stake transaction of only 5 BRAINERS. -/
def c8Tx : Transaction :=
  { sender := "S", recipient := "S", amount := 5, transaction_type := TxType.stake,
    fee := 1/1000, dataToken := some "BRAINERS", sigOk := true }

/-- A state with a single active validator V of stake 20000. -/
def c8uSt : ChainState :=
  { initialState with validators := [("V", Validator.init "V" 20000 false)] }

/-- V unstakes 5000 BRAINERS, leaving its stake at 15000 ≥ `min_stake`. -/
def c8uTx : Transaction :=
  { sender := "V", recipient := "V", amount := 5000, transaction_type := TxType.unstake,
    fee := 1/1000, dataToken := some "BRAINERS", sigOk := true }

/-- The validator record stored for V after `c8uTx` is applied: stake 15000,
still active. -/
def c8uV : Validator :=
  { address := "V", stake := 15000, is_gift := false, last_block_validated := 0,
    reputation := 1, is_active := true, total_rewards := 0, performance_history := [] }

/-- A state with one eligible validator V (stake 10000, reputation 1). -/
def c9St : ChainState :=
  { initialState with validators := [("V", Validator.init "V" 10000 false)] }

lemma dictLookup_dictUpdate {β : Type} (d : List (String × β)) (k : String) (f : β → β) :
    dictLookup (dictUpdate d k f) k = (dictLookup d k).map f := by
  induction d with
  | nil => rfl
  | cons p rest ih =>
    by_cases h : p.1 = k
    · simp [dictLookup, dictUpdate, List.find?, h]
    · have hb : (p.1 == k) = false := by simpa using h
      simp [dictLookup, dictUpdate, List.find?, hb] at ih ⊢
      exact ih

lemma dictLookup_dictRemove {β : Type} (d : List (String × β)) (k : String) :
    dictLookup (dictRemove d k) k = none := by
  induction d with
  | nil => rfl
  | cons p rest ih =>
    by_cases h : p.1 = k
    · simp [dictRemove, h] at ih ⊢
      exact ih
    · have hb : (p.1 == k) = false := by simpa using h
      simp only [dictLookup, dictRemove] at ih ⊢
      simp [List.find?, hb]

lemma apply_transaction_pending (st : ChainState) (tx : Transaction) :
    (apply_transaction st tx).pending_transactions = st.pending_transactions := by
  unfold apply_transaction
  repeat' split
  all_goals rfl

lemma foldl_apply_pending (l : List Transaction) (st : ChainState) :
    (l.foldl apply_transaction st).pending_transactions = st.pending_transactions := by
  induction l generalizing st with
  | nil => rfl
  | cons tx rest ih =>
    rw [List.foldl_cons, ih, apply_transaction_pending]

/-- Claim C3 as amended: the fee is computed from the length `d` of
`self.pending_transactions` — a list that is distinct from the mempool and
that none of the engine's operations ever appends to — and as a function of
that length it equals `clamp(MIN_FEE * (3/2)^(d / 1000), MIN_FEE, MAX_FEE)`,
is `1/1000` for `d < 1000`, and never exceeds `1/100`; consequently the
engine always charges `MIN_FEE` regardless of mempool depth. -/
theorem fee_policy_matches_clamp (pending : List Transaction) :
    (calculate_transaction_fee pending
      = clampSpec (MIN_FEE * (3/2) ^ (pending.length / 1000)) MIN_FEE MAX_FEE ∧
    (pending.length < 1000 → calculate_transaction_fee pending = MIN_FEE) ∧
    calculate_transaction_fee pending ≤ MAX_FEE) ∧
    ((∀ st tx, (add_transaction st tx).2.pending_transactions = st.pending_transactions) ∧
     (∀ st tx, (apply_transaction st tx).pending_transactions = st.pending_transactions) ∧
     (∀ st p, (create_block st p).2.pending_transactions = st.pending_transactions)) := by
  refine ⟨?_, ?_, apply_transaction_pending, ?_⟩
  case refine_2 =>
    intro st tx
    unfold add_transaction
    repeat' split
    all_goals rfl
  case refine_3 =>
    intro st p
    unfold create_block
    split
    · rfl
    · simp only [apply_transaction_pending, foldl_apply_pending]
  have hmult : (1 : ℚ) ≤ (3/2) ^ (pending.length / 1000) :=
    one_le_pow₀ (by norm_num)
  have hx : MIN_FEE ≤ MIN_FEE * (3/2) ^ (pending.length / 1000) :=
    le_mul_of_one_le_right (by norm_num [MIN_FEE]) hmult
  have hlohi : MIN_FEE ≤ MAX_FEE := by norm_num [MIN_FEE, MAX_FEE]
  refine ⟨?_, ?_, ?_⟩
  · unfold calculate_transaction_fee clampSpec
    dsimp only
    rw [max_eq_left hx, max_eq_right (le_min hx hlohi)]
  · intro hlt
    unfold calculate_transaction_fee
    dsimp only
    rw [Nat.div_eq_of_lt hlt]
    norm_num [MIN_FEE, MAX_FEE]
  · unfold calculate_transaction_fee
    exact min_le_right _ _

/-- Claim C3 witness: at depth 0 the fee evaluates to `MIN_FEE`. -/
theorem fee_policy_matches_clamp_witness :
    (List.length ([] : List Transaction) < 1000) ∧
    calculate_transaction_fee [] = MIN_FEE :=
  ⟨by decide, (fee_policy_matches_clamp []).1.2.1 (by decide)⟩

/-- Claim C10: `apply_transaction` re-checks no preconditions: a transfer,
burn, or stake transaction whose `amount + fee` exceeds the sender's balance
of the transaction's token is applied anyway, leaving the sender with a
negative balance. -/
theorem apply_rechecks_no_preconditions (st : ChainState) (s r : Address)
    (tok : TokenId) (amount fee : ℚ) (sig : Bool)
    (hne : s ≠ r)
    (hover : st.accounts s tok < amount + fee)
    (hoverB : st.accounts s "BRAINERS" < amount + fee) :
    ((apply_transaction st
        { sender := s, recipient := r, amount := amount,
          transaction_type := TxType.transfer, fee := fee,
          dataToken := some tok, sigOk := sig }).accounts s tok
        = st.accounts s tok - (amount + fee) ∧
      (apply_transaction st
        { sender := s, recipient := r, amount := amount,
          transaction_type := TxType.transfer, fee := fee,
          dataToken := some tok, sigOk := sig }).accounts s tok < 0) ∧
    ((apply_transaction st
        { sender := s, recipient := r, amount := amount,
          transaction_type := TxType.burn, fee := fee,
          dataToken := some tok, sigOk := sig }).accounts s tok
        = st.accounts s tok - (amount + fee) ∧
      (apply_transaction st
        { sender := s, recipient := r, amount := amount,
          transaction_type := TxType.burn, fee := fee,
          dataToken := some tok, sigOk := sig }).accounts s tok < 0) ∧
    ((apply_transaction st
        { sender := s, recipient := s, amount := amount,
          transaction_type := TxType.stake, fee := fee,
          dataToken := some "BRAINERS", sigOk := sig }).accounts s "BRAINERS"
        = st.accounts s "BRAINERS" - (amount + fee) ∧
      (apply_transaction st
        { sender := s, recipient := s, amount := amount,
          transaction_type := TxType.stake, fee := fee,
          dataToken := some "BRAINERS", sigOk := sig }).accounts s "BRAINERS" < 0) := by
  refine ⟨⟨?_, ?_⟩, ⟨?_, ?_⟩, ⟨?_, ?_⟩⟩ <;>
    simp only [apply_transaction, txToken, Option.getD_some, updBal, reduceCtorEq,
      or_false, false_or, or_self, if_true, if_false, ite_true, ite_false,
      reduceIte] <;>
    simp [hne, Ne.symm hne] <;>
    linarith

/-- Claim C10 witness: with a zero balance, a transfer of 10 with fee 1/1000
still applies and drives the sender negative. -/
theorem apply_rechecks_no_preconditions_witness :
    (apply_transaction initialState
      { sender := "A", recipient := "B", amount := 10,
        transaction_type := TxType.transfer, fee := 1/1000,
        dataToken := some "T", sigOk := true }).accounts "A" "T" < 0 :=
  (apply_rechecks_no_preconditions initialState "A" "B" "T" 10 (1/1000) true
    (by decide) (by norm_num [initialState]) (by norm_num [initialState])).1.2

/-- Claim C4: applying a transfer (with sufficient sender balance and distinct
parties) debits the sender by exactly `amount + fee`, credits the recipient by
exactly `amount`, touches no other account, and decreases the total balance of
the transaction's token over any finite set of accounts containing both
parties by exactly `fee` — the fee is burned. -/
theorem transfer_debits_credits_burns_fee (st : ChainState) (tx : Transaction)
    (hk : tx.transaction_type = TxType.transfer)
    (hne : tx.sender ≠ tx.recipient)
    (_hbal : tx.amount + tx.fee ≤ st.accounts tx.sender (txToken tx)) :
    (apply_transaction st tx).accounts tx.sender (txToken tx)
        = st.accounts tx.sender (txToken tx) - (tx.amount + tx.fee) ∧
    (apply_transaction st tx).accounts tx.recipient (txToken tx)
        = st.accounts tx.recipient (txToken tx) + tx.amount ∧
    (∀ a, a ≠ tx.sender → a ≠ tx.recipient → ∀ t,
        (apply_transaction st tx).accounts a t = st.accounts a t) ∧
    (∀ S : Finset Address, tx.sender ∈ S → tx.recipient ∈ S →
        (∑ a ∈ S, (apply_transaction st tx).accounts a (txToken tx))
          = (∑ a ∈ S, st.accounts a (txToken tx)) - tx.fee) := by
  have happ : (apply_transaction st tx).accounts
      = updBal (updBal st.accounts tx.sender (txToken tx)
          (st.accounts tx.sender (txToken tx) - (tx.amount + tx.fee)))
          tx.recipient (txToken tx)
          ((updBal st.accounts tx.sender (txToken tx)
            (st.accounts tx.sender (txToken tx) - (tx.amount + tx.fee)))
            tx.recipient (txToken tx) + tx.amount) := by
    simp [apply_transaction, hk]
  have hpt : ∀ a, (apply_transaction st tx).accounts a (txToken tx)
      = st.accounts a (txToken tx) + ((if a = tx.recipient then tx.amount else 0)
        + (if a = tx.sender then -(tx.amount + tx.fee) else 0)) := by
    intro a
    by_cases h1 : a = tx.recipient
    · subst h1
      rw [happ]
      simp [updBal, Ne.symm hne]
    · by_cases h2 : a = tx.sender
      · subst h2
        rw [happ]
        simp [updBal, hne, h1]
        ring
      · rw [happ]
        simp [updBal, h1, h2]
  refine ⟨?_, ?_, ?_, ?_⟩
  · rw [happ]
    simp [updBal, hne]
  · rw [happ]
    simp [updBal, Ne.symm hne]
  · intro a h1 h2 t
    rw [happ]
    simp [updBal, h1, h2]
  · intro S hsS hrS
    calc (∑ a ∈ S, (apply_transaction st tx).accounts a (txToken tx))
        = ∑ a ∈ S, (st.accounts a (txToken tx)
            + ((if a = tx.recipient then tx.amount else 0)
              + (if a = tx.sender then -(tx.amount + tx.fee) else 0))) :=
          Finset.sum_congr rfl (fun a _ => hpt a)
      _ = (∑ a ∈ S, st.accounts a (txToken tx))
            + ((∑ a ∈ S, if a = tx.recipient then tx.amount else 0)
              + (∑ a ∈ S, if a = tx.sender then -(tx.amount + tx.fee) else 0)) := by
          rw [Finset.sum_add_distrib, Finset.sum_add_distrib]
      _ = (∑ a ∈ S, st.accounts a (txToken tx)) - tx.fee := by
          rw [Finset.sum_ite_eq' S tx.recipient (fun _ => tx.amount),
            Finset.sum_ite_eq' S tx.sender (fun _ => -(tx.amount + tx.fee))]
          rw [if_pos hrS, if_pos hsS]
          ring

/-- Claim C4 witness, scenario S2: A holding 100 BRAINERS transfers 10 to B
with fee 1/1000; afterwards A holds `100 - 10 - 1/1000`, B holds 10, and the
total over `{A, B}` fell by the burned fee. -/
theorem transfer_debits_credits_burns_fee_witness :
    (apply_transaction c4St c4Tx).accounts c4Tx.sender (txToken c4Tx) = 100 - 10 - 1/1000 ∧
    (apply_transaction c4St c4Tx).accounts c4Tx.recipient (txToken c4Tx) = 10 := by
  have h := transfer_debits_credits_burns_fee c4St c4Tx rfl (by decide)
    (by simp [c4St, c4Tx, txToken, initialState]; norm_num)
  constructor
  · rw [h.1]
    simp [c4St, c4Tx, txToken, initialState]
    norm_num
  · rw [h.2.1]
    simp [c4St, c4Tx, txToken, initialState]

/-- Claim C2 counterexample: a transaction identical to one already sitting in
the mempool (hence with the same hash) is admitted again by
`add_transaction` — no duplicate-hash check exists, refuting the
"not already present" admission condition. -/
theorem duplicate_hash_still_admitted :
    c2Tx ∈ c2St.mempool ∧ (add_transaction c2St c2Tx).1 = true ∧
    (add_transaction c2St c2Tx).2.mempool = [c2Tx, c2Tx] := by
  refine ⟨by simp [c2St], ?_, ?_⟩ <;>
    simp [add_transaction, c2St, c2Tx, txToken, verify_transaction, initialState]

/-- Claim C2 as amended: a non-genesis transaction is admitted if and only if
its signature verifies and the sender holds at least `amount + fee` of the
transaction's token (presence in the mempool is not checked); a rejected
transaction leaves the state unchanged, an admitted one is appended to the
mempool. -/
theorem admission_is_signature_and_balance (st : ChainState) (tx : Transaction)
    (hk : tx.transaction_type ≠ TxType.genesis) :
    ((add_transaction st tx).1 = true ↔
      (tx.sigOk = true ∧ tx.amount + tx.fee ≤ st.accounts tx.sender (txToken tx))) ∧
    ((add_transaction st tx).1 = false → (add_transaction st tx).2 = st) ∧
    ((add_transaction st tx).1 = true →
      (add_transaction st tx).2.mempool = st.mempool ++ [tx]) := by
  have hv : verify_transaction tx = tx.sigOk := by
    simp [verify_transaction, hk]
  by_cases hb : st.accounts tx.sender (txToken tx) < tx.amount + tx.fee
  · have hres : add_transaction st tx = (false, st) := by
      simp [add_transaction, hk, hb]
    rw [hres]
    exact ⟨⟨fun h => absurd h (by simp), fun h => absurd h.2 (not_le.mpr hb)⟩,
      fun _ => rfl, fun h => absurd h (by simp)⟩
  · by_cases hs : tx.sigOk = true
    · have hres : add_transaction st tx
          = (true, { st with mempool := st.mempool ++ [tx] }) := by
        simp [add_transaction, hb, hv, hs]
      rw [hres]
      exact ⟨⟨fun _ => ⟨hs, not_lt.mp hb⟩, fun _ => rfl⟩,
        fun h => absurd h (by simp), fun _ => rfl⟩
    · have hres : add_transaction st tx = (false, st) := by
        simp [add_transaction, hb, hv, hs]
      rw [hres]
      exact ⟨⟨fun h => absurd h (by simp), fun h => absurd h.1 hs⟩,
        fun _ => rfl, fun h => absurd h (by simp)⟩

/-- Claim C2 witness: the funded, correctly signed transfer `c2Tx` is
admitted. -/
theorem admission_is_signature_and_balance_witness :
    (add_transaction c2St c2Tx).1 = true :=
  ((admission_is_signature_and_balance c2St c2Tx (by decide)).1).mpr
    ⟨rfl, by simp [c2St, c2Tx, txToken, initialState]⟩

/-- Claim C8 counterexample: an admissible stake transaction of 5 BRAINERS
from a funded sender creates a validator that is active while holding stake
5 < MIN_STAKE = 10000, violating the claimed invariant
`is_active ⇒ stake ≥ MIN_STAKE`. -/
theorem stake_creates_active_validator_below_min :
    (add_transaction c8St c8Tx).1 = true ∧
    ((dictLookup (apply_transaction c8St c8Tx).validators "S").map
        (fun v => (v.is_active, decide (v.stake < (apply_transaction c8St c8Tx).min_stake))))
      = some (true, true) := by
  constructor
  · simp [add_transaction, c8St, c8Tx, txToken, verify_transaction, initialState]
    norm_num
  · rfl

/-- Claim C8 as amended: only `unstake` enforces the implication — after an
unstake by a registered validator, that validator satisfies
`is_active ⇒ stake ≥ min_stake` (it is deactivated whenever its stake falls
below `min_stake`); `stake` and `gift_validator` create active validators
regardless of stake, so the invariant does not hold in all reachable states. -/
theorem unstake_restores_min_stake_invariant (st : ChainState) (tx : Transaction)
    (hk : tx.transaction_type = TxType.unstake)
    (v : Validator) (hv : dictLookup st.validators tx.sender = some v) :
    ∀ v', dictLookup (apply_transaction st tx).validators tx.sender = some v' →
      v'.is_active = true → st.min_stake ≤ v'.stake := by
  intro v' hv' hact
  have happ : (apply_transaction st tx).validators
      = dictUpdate (dictUpdate st.validators tx.sender
          (fun w => { w with stake := w.stake - tx.amount })) tx.sender
          (fun w => if w.stake < st.min_stake then { w with is_active := false } else w) := by
    simp [apply_transaction, hk, hv]
  rw [happ, dictLookup_dictUpdate, dictLookup_dictUpdate, hv] at hv'
  simp only [Option.map_some', Option.some.injEq] at hv'
  by_cases hlt : v.stake - tx.amount < st.min_stake
  · rw [← hv'] at hact
    simp [hlt] at hact
  · rw [← hv']
    simp only [hlt, if_false, ite_false, if_neg hlt]
    exact not_lt.mp hlt

/-- Claim C8 witness: validator V (stake 20000, active) unstakes 5000; the
stored record stays active with stake 15000, and the theorem yields
`min_stake ≤ 15000` for it. -/
theorem unstake_restores_min_stake_invariant_witness :
    c8uSt.min_stake ≤ c8uV.stake :=
  unstake_restores_min_stake_invariant c8uSt c8uTx rfl
    (Validator.init "V" 20000 false)
    (by simp [c8uSt, c8uTx, dictLookup, initialState])
    c8uV
    (by simp [c8uSt, c8uTx, apply_transaction, dictLookup, dictUpdate, updBal,
      Validator.init, initialState, c8uV, txToken]
        norm_num)
    rfl

lemma selectGo_eq_firstCumGe (p : ℚ) (fb : Option Validator) :
    ∀ (l : List Validator) (acc : ℚ), l ≠ [] → p ≤ acc + total_stake l →
      selectGo p acc fb l = firstCumGe p acc l := by
  intro l
  induction l with
  | nil => intro acc h _; exact absurd rfl h
  | cons v rest ih =>
    intro acc _ hle
    simp only [selectGo, firstCumGe]
    by_cases hc : p ≤ acc + v.stake * v.reputation
    · simp [hc]
    · rw [if_neg hc, if_neg hc]
      cases rest with
      | nil =>
        exfalso
        apply hc
        simpa [total_stake] using hle
      | cons w ws =>
        apply ih
        · simp
        · have hts : total_stake (v :: w :: ws)
              = v.stake * v.reputation + total_stake (w :: ws) := by
            simp [total_stake]
          rw [hts] at hle
          linarith

/-- Claim C5: the eligible set is exactly the registered validators with
`stake ≥ min_stake` that are active; with no eligible validator no one is
selected and `create_block` aborts without touching the state; otherwise, for
any drawn point in `[0, Σ stake×reputation]`, the selected validator is the
first eligible one whose cumulative weight reaches the point. -/
theorem validator_selection_follows_spec (st : ChainState) (p : ℚ) :
    (∀ v, v ∈ eligible_validators st ↔
        (v ∈ st.validators.map (fun q => q.2) ∧ st.min_stake ≤ v.stake ∧ v.is_active = true)) ∧
    (eligible_validators st = [] →
        select_validator st p = none ∧ create_block st p = (none, st)) ∧
    (eligible_validators st ≠ [] → 0 ≤ p → p ≤ total_stake (eligible_validators st) →
        select_validator st p = firstCumGe p 0 (eligible_validators st)) := by
  refine ⟨?_, ?_, ?_⟩
  · intro v
    simp [eligible_validators, List.mem_filter, and_assoc]
  · intro h
    have hsel : select_validator st p = none := by
      simp [select_validator, h]
    exact ⟨hsel, by simp [create_block, hsel]⟩
  · intro hne _ hle
    unfold select_validator
    rw [if_neg (by simpa using hne)]
    exact selectGo_eq_firstCumGe p _ _ 0 hne (by simpa using hle)

/-- Claim C5 witness: with eligible validators of weights 10000 and 20000 and
drawn point 15000, selection follows the cumulative rule and picks the second
validator (cumulative weight 30000 is the first to reach 15000). -/
theorem validator_selection_follows_spec_witness :
    select_validator c5St 15000 = firstCumGe 15000 0 (eligible_validators c5St) ∧
    select_validator c5St 15000 = some (Validator.init "V2" 20000 false) := by
  constructor
  · exact (validator_selection_follows_spec c5St 15000).2.2
      (by simp [eligible_validators, c5St, initialState, Validator.init])
      (by norm_num)
      (by simp [eligible_validators, total_stake, c5St, initialState, Validator.init]
          norm_num)
  · simp [select_validator, c5St, eligible_validators, initialState, Validator.init,
      selectGo, total_stake]
    norm_num

/-- Guard behaviour of `claim_tuv` (supporting lemma for claim C7): a claim
by a non-owner fails and changes nothing; a claim by the owner strictly
before `creation_time + lock_period` fails and changes nothing; a claim by
the owner at or after that instant returns success, deletes the vault, and
builds the release transaction for the escrowed `token_amount` that the
source submits to `add_transaction` — whose fate the claim-C7 theorem below
settles. -/
theorem claim_tuv_guards_and_release (tuvs : List (String × Tuv)) (tuv_id : String)
    (claimer : Address) (now : ℚ) (tuv : Tuv)
    (hfound : dictLookup tuvs tuv_id = some tuv) :
    (tuv.owner ≠ claimer → claim_tuv tuvs tuv_id claimer now = (false, tuvs, none)) ∧
    (tuv.owner = claimer → now < tuv.creation_time + tuv.lock_period →
        claim_tuv tuvs tuv_id claimer now = (false, tuvs, none)) ∧
    (tuv.owner = claimer → tuv.creation_time + tuv.lock_period ≤ now →
        claim_tuv tuvs tuv_id claimer now
          = (true, dictRemove tuvs tuv_id,
              some { sender := "0xBrainersTUV", recipient := claimer,
                     amount := tuv.token_amount, transaction_type := TxType.claim_tuv,
                     fee := 0, dataToken := none, sigOk := false }) ∧
        dictLookup (claim_tuv tuvs tuv_id claimer now).2.1 tuv_id = none) := by
  refine ⟨?_, ?_, ?_⟩
  · intro hown
    simp [claim_tuv, hfound, hown]
  · intro hown hlt
    simp [claim_tuv, hfound, hown, hlt]
  · intro hown hge
    have hres : claim_tuv tuvs tuv_id claimer now
        = (true, dictRemove tuvs tuv_id,
            some { sender := "0xBrainersTUV", recipient := claimer,
                   amount := tuv.token_amount, transaction_type := TxType.claim_tuv,
                   fee := 0, dataToken := none, sigOk := false }) := by
      simp [claim_tuv, hfound, hown, not_lt.mpr hge]
    refine ⟨hres, ?_⟩
    rw [hres]
    exact dictLookup_dictRemove tuvs tuv_id

/-- Scenario S5 instance of the guard lemma: for a vault locking 500 T for
3600 s the owner's claim at 3500 s fails with no change; at 3700 s it
returns success and the vault is deleted. -/
theorem claim_tuv_guards_and_release_witness :
    claim_tuv s5Tuvs "TUV-1" "C" 3500 = (false, s5Tuvs, none) ∧
    (claim_tuv s5Tuvs "TUV-1" "C" 3700).1 = true ∧
    dictLookup (claim_tuv s5Tuvs "TUV-1" "C" 3700).2.1 "TUV-1" = none := by
  have hf : dictLookup s5Tuvs "TUV-1" = some s5Tuv := by
    simp [s5Tuvs, dictLookup]
  have h1 := (claim_tuv_guards_and_release s5Tuvs "TUV-1" "C" 3500 s5Tuv hf).2.1
    rfl (by norm_num [s5Tuv])
  have h2 := (claim_tuv_guards_and_release s5Tuvs "TUV-1" "C" 3700 s5Tuv hf).2.2
    rfl (by norm_num [s5Tuv])
  exact ⟨h1, by rw [h2.1], h2.2⟩

/-- Claim C7 evidence at the failing input (scenario S5): at 3700 s the
owner's claim succeeds and deletes the vault, and the release transaction it
submits names the claimer as recipient for the escrowed 500 tokens — but
`add_transaction` rejects that transaction on the spot (the TUV address's
BRAINERS balance is 0, below `amount + fee`, and the transaction is unsigned
so `verify_transaction` would fail even with funds), returning `False` and
leaving the state unchanged: the escrowed tokens are never credited to the
claimer.  The guards do behave as claimed: at 3500 s, or for a non-owner,
the claim fails with no change. -/
theorem claim_tuv_release_is_never_applied :
    (claim_tuv s5Tuvs "TUV-1" "C" 3700).1 = true ∧
    dictLookup (claim_tuv s5Tuvs "TUV-1" "C" 3700).2.1 "TUV-1" = none ∧
    (claim_tuv s5Tuvs "TUV-1" "C" 3700).2.2 = some s5ReleaseTx ∧
    s5ReleaseTx.recipient = "C" ∧
    s5ReleaseTx.amount = 500 ∧
    initialState.accounts "0xBrainersTUV" "BRAINERS" = 0 ∧
    verify_transaction s5ReleaseTx = false ∧
    add_transaction initialState s5ReleaseTx = (false, initialState) ∧
    claim_tuv s5Tuvs "TUV-1" "C" 3500 = (false, s5Tuvs, none) ∧
    claim_tuv s5Tuvs "TUV-1" "X" 3700 = (false, s5Tuvs, none) := by
  have hsucc : claim_tuv s5Tuvs "TUV-1" "C" 3700
      = (true, dictRemove s5Tuvs "TUV-1", some s5ReleaseTx) := by
    simp [claim_tuv, s5Tuvs, s5Tuv, s5ReleaseTx, dictLookup]
    norm_num
  refine ⟨?_, ?_, ?_, rfl, rfl, rfl, rfl, ?_, ?_, ?_⟩
  · rw [hsucc]
  · rw [hsucc]
    exact dictLookup_dictRemove s5Tuvs "TUV-1"
  · rw [hsucc]
  · simp [add_transaction, initialState, s5ReleaseTx, txToken]
  · simp [claim_tuv, s5Tuvs, s5Tuv, dictLookup]
    norm_num
  · simp [claim_tuv, s5Tuvs, s5Tuv, dictLookup]

/-- Claim C6: order matching follows the source loop on arbitrary books:
while the top buy's price is at least the top sell's price, the two tops are
matched at the midpoint price `(buy_price + sell_price)/2` for amount
`min(buy.amount, sell.amount)`; the trade moves
`brainers_amount = amount × price` with fee `brainers_amount × 3/1000` split
equally (the buyer pays `brainers_amount + fee/2` BRAINERS and gains the
token amount, the seller receives `brainers_amount − fee/2` and loses the
token amount); exactly the fully filled side is removed, a partially filled
order stays with its remainder, and the loop stops as soon as the books no
longer cross (or one side is empty).  The last conjunct states the book-level
`match_orders` outcome for a fully matched pair. -/
theorem order_matching_midpoint_fee_split (token : TokenId)
    (htok : token ≠ "BRAINERS") :
    (∀ (acc : Accounts) (buyer seller : Address) (amount price : ℚ),
      buyer ≠ seller →
      execute_trade acc token buyer seller amount price buyer token
          = acc buyer token + amount ∧
      execute_trade acc token buyer seller amount price buyer "BRAINERS"
          = acc buyer "BRAINERS" - (amount * price + amount * price * (3/1000) / 2) ∧
      execute_trade acc token buyer seller amount price seller token
          = acc seller token - amount ∧
      execute_trade acc token buyer seller amount price seller "BRAINERS"
          = acc seller "BRAINERS" + (amount * price - amount * price * (3/1000) / 2)) ∧
    (∀ (acc : Accounts) (b s : DexOrder) (bs ss : List DexOrder),
      s.price ≤ b.price →
      matchLoop acc token (b :: bs) (s :: ss)
        = matchLoop
            (execute_trade acc token b.trader s.trader (min b.amount s.amount)
              ((b.price + s.price) / 2)) token
            (if b.amount - min b.amount s.amount = 0 then bs
             else { b with amount := b.amount - min b.amount s.amount } :: bs)
            (if s.amount - min b.amount s.amount = 0 then ss
             else { s with amount := s.amount - min b.amount s.amount } :: ss)) ∧
    (∀ (acc : Accounts) (b s : DexOrder) (bs ss : List DexOrder),
      b.price < s.price →
      matchLoop acc token (b :: bs) (s :: ss) = (acc, b :: bs, s :: ss)) ∧
    (∀ (acc : Accounts) (ss : List DexOrder),
      matchLoop acc token [] ss = (acc, [], ss)) ∧
    (∀ (acc : Accounts) (b : DexOrder) (bs : List DexOrder),
      matchLoop acc token (b :: bs) [] = (acc, b :: bs, [])) ∧
    (∀ (acc : Accounts) (b s : DexOrder),
      s.price ≤ b.price → b.amount < s.amount →
      matchLoop acc token [b] [s]
        = (execute_trade acc token b.trader s.trader b.amount ((b.price + s.price) / 2),
            [], [{ s with amount := s.amount - b.amount }])) ∧
    (∀ (acc : Accounts) (b s : DexOrder),
      b.otype = OrderType.buy → s.otype = OrderType.sell →
      s.price ≤ b.price → b.amount = s.amount →
      match_orders acc token [b, s]
        = (execute_trade acc token b.trader s.trader b.amount
            ((b.price + s.price) / 2), [])) := by
  have hstep : ∀ (acc : Accounts) (b s : DexOrder) (bs ss : List DexOrder),
      s.price ≤ b.price →
      matchLoop acc token (b :: bs) (s :: ss)
        = matchLoop
            (execute_trade acc token b.trader s.trader (min b.amount s.amount)
              ((b.price + s.price) / 2)) token
            (if b.amount - min b.amount s.amount = 0 then bs
             else { b with amount := b.amount - min b.amount s.amount } :: bs)
            (if s.amount - min b.amount s.amount = 0 then ss
             else { s with amount := s.amount - min b.amount s.amount } :: ss) := by
    intro acc b s bs ss hcross
    rw [matchLoop]
    rw [if_pos hcross]
  have hnil₁ : ∀ (acc : Accounts) (ss : List DexOrder),
      matchLoop acc token [] ss = (acc, [], ss) := by
    intro acc ss
    rw [matchLoop]
    intro _ _ _ _ h _
    exact List.noConfusion h
  have hnil₂ : ∀ (acc : Accounts) (b : DexOrder) (bs : List DexOrder),
      matchLoop acc token (b :: bs) [] = (acc, b :: bs, []) := by
    intro acc b bs
    rw [matchLoop]
    intro _ _ _ _ _ h
    exact List.noConfusion h
  have hpart : ∀ (acc : Accounts) (b s : DexOrder),
      s.price ≤ b.price → b.amount < s.amount →
      matchLoop acc token [b] [s]
        = (execute_trade acc token b.trader s.trader b.amount ((b.price + s.price) / 2),
            [], [{ s with amount := s.amount - b.amount }]) := by
    intro acc b s hcross hlt
    have hmin : min b.amount s.amount = b.amount := min_eq_left (le_of_lt hlt)
    have hsz : ¬(s.amount - b.amount = 0) :=
      sub_ne_zero_of_ne (ne_of_gt hlt)
    rw [hstep acc b s [] [] hcross, hmin, sub_self, if_pos rfl, if_neg hsz,
      hnil₁]
  refine ⟨?_, hstep, ?_, hnil₁, hnil₂, hpart, ?_⟩
  · intro acc buyer seller amount price hbs
    refine ⟨?_, ?_, ?_, ?_⟩ <;>
      simp [execute_trade, fee_percentage, updBal, hbs, Ne.symm hbs, htok,
        Ne.symm htok]
  · intro acc b s bs ss hlt
    rw [matchLoop]
    rw [if_neg (not_le.mpr hlt)]
  · intro acc b s hb hs hcross ha
    have hmin : min b.amount s.amount = b.amount := by
      rw [ha, min_self]
    unfold match_orders
    simp only [List.filter_cons, List.filter_nil, hb, hs]
    simp only [List.mergeSort_singleton, beq_self_eq_true, if_true,
      reduceCtorEq, beq_iff_eq, if_false, ite_true, ite_false]
    rw [hstep acc b s [] [] hcross, hmin, sub_self, if_pos rfl, ha, sub_self,
      if_pos rfl, hnil₁]
    simp

/-- Claim C6 witness, scenario S4 and a partial-fill variant: buy 10 T at 2
against sell 10 T at 1 trades at price 3/2 for amount 10 with fee 9/200, the
buyer's T rises by 10 and the seller's BRAINERS rises by `15 − 9/400`, both
orders leaving the book; against a sell of 25 T at 1 the same buy trades its
full 10 = min(10, 25), the buy order is removed, and the sell order remains
with the 15 T remainder. -/
theorem order_matching_midpoint_fee_split_witness :
    (match_orders (fun _ _ => 0) "T" [s4Buy, s4Sell]).1 s4Sell.trader "BRAINERS"
      = 15 - 9/400 ∧
    (match_orders (fun _ _ => 0) "T" [s4Buy, s4Sell]).1 s4Buy.trader "T" = 10 ∧
    matchLoop (fun _ _ => 0) "T" [s4Buy] [s4SellBig]
      = (execute_trade (fun _ _ => 0) "T" s4Buy.trader s4SellBig.trader 10 (3/2),
          [], [{ s4SellBig with amount := 15 }]) := by
  obtain ⟨hex, -, -, -, -, hpart, hfull⟩ :=
    order_matching_midpoint_fee_split "T" (by decide)
  have hmo := hfull (fun _ _ => 0) s4Buy s4Sell rfl rfl
    (by norm_num [s4Buy, s4Sell]) (by norm_num [s4Buy, s4Sell])
  have hdelta := hex (fun _ _ => 0) s4Buy.trader s4Sell.trader s4Buy.amount
    ((s4Buy.price + s4Sell.price) / 2) (by decide)
  refine ⟨?_, ?_, ?_⟩
  · rw [hmo]
    dsimp only
    rw [hdelta.2.2.2]
    norm_num [s4Buy, s4Sell]
  · rw [hmo]
    dsimp only
    rw [hdelta.1]
    norm_num [s4Buy, s4Sell]
  · have hp := hpart (fun _ _ => 0) s4Buy s4SellBig
      (by norm_num [s4Buy, s4SellBig]) (by norm_num [s4Buy, s4SellBig])
    rw [hp]
    norm_num [s4Buy, s4SellBig]

/-- Claim C9 evidence: producing a block from `c9St` succeeds, credits the
selected validator's BRAINERS account with the block reward 1, but leaves the
validator's `total_rewards` at 0 — `Validator.add_reward` is never invoked by
`create_block`, contradicting the claimed `total_rewards = 1` after the first
block. -/
theorem block_reward_credits_balance_not_total_rewards :
    (create_block c9St 0).1.isSome = true ∧
    ((dictLookup (create_block c9St 0).2.validators "V").map
        (fun v => v.total_rewards)) = some 0 ∧
    (create_block c9St 0).2.accounts "V" "BRAINERS"
      = c9St.accounts "V" "BRAINERS" + 1 := by
  have hVZ : ("V" : String) ≠ zeroAddress := by decide
  refine ⟨?_, ?_, ?_⟩ <;>
    simp [create_block, c9St, select_validator, eligible_validators, selectGo,
      Validator.init, Validator.update_reputation, initialState, apply_transaction,
      updBal, txToken, dictUpdate, dictLookup, calculate_block_reward,
      MAX_TRANSACTIONS_PER_BLOCK, hVZ, Ne.symm hVZ, List.find?]

/-- Claim C1 counterexample: replaying block 0 from an empty state does not
reproduce the recorded post-genesis state — `apply_transaction` debits the
zero-address sender of each genesis transaction, while
`create_initial_distribution` credited the recipients without any debit, so
the zero address ends at a different (negative) balance and the serialized
state (hence the state root) differs. -/
theorem genesis_replay_state_differs :
    c1Replayed.accounts zeroAddress "BRAINERS"
      ≠ c1Original.accounts zeroAddress "BRAINERS" := by
  simp [c1Replayed, c1Original, c1OriginalOf, reindex_blockchain, create_genesis_block,
    create_initial_distribution, distributions, c1Wallets, genesisTransaction,
    apply_transaction, txToken, updBal, initialState, INITIAL_BRAINERS_SUPPLY,
    zeroAddress]
  norm_num

/-- Claim C1 as amended: replaying block 0 from an empty state through
`apply_transaction` reproduces the original balance of each of the six
genesis treasury wallets, but additionally debits the zero address by the
whole distributed amount `total × 9/10` (the six fractions sum to
9000/10000; the original run never debited the zero address, which stays
at 0), so the replayed world state — and with it the recomputed state
root — differs from the recorded one. -/
theorem genesis_replay_balances (t : ℚ) (w0 w1 w2 w3 w4 w5 : Address)
    (hz0 : w0 ≠ zeroAddress) (hz1 : w1 ≠ zeroAddress) (hz2 : w2 ≠ zeroAddress)
    (hz3 : w3 ≠ zeroAddress) (hz4 : w4 ≠ zeroAddress) (hz5 : w5 ≠ zeroAddress)
    (h01 : w0 ≠ w1) (h02 : w0 ≠ w2) (h03 : w0 ≠ w3) (h04 : w0 ≠ w4) (h05 : w0 ≠ w5)
    (h12 : w1 ≠ w2) (h13 : w1 ≠ w3) (h14 : w1 ≠ w4) (h15 : w1 ≠ w5)
    (h23 : w2 ≠ w3) (h24 : w2 ≠ w4) (h25 : w2 ≠ w5)
    (h34 : w3 ≠ w4) (h35 : w3 ≠ w5) (h45 : w4 ≠ w5) :
    (c1OriginalOf t [w0, w1, w2, w3, w4, w5]).accounts zeroAddress "BRAINERS" = 0 ∧
    (c1ReplayedOf t [w0, w1, w2, w3, w4, w5]).accounts zeroAddress "BRAINERS"
      = -(t * (9/10)) ∧
    ((c1ReplayedOf t [w0, w1, w2, w3, w4, w5]).accounts w0 "BRAINERS"
        = (c1OriginalOf t [w0, w1, w2, w3, w4, w5]).accounts w0 "BRAINERS" ∧
      (c1ReplayedOf t [w0, w1, w2, w3, w4, w5]).accounts w1 "BRAINERS"
        = (c1OriginalOf t [w0, w1, w2, w3, w4, w5]).accounts w1 "BRAINERS" ∧
      (c1ReplayedOf t [w0, w1, w2, w3, w4, w5]).accounts w2 "BRAINERS"
        = (c1OriginalOf t [w0, w1, w2, w3, w4, w5]).accounts w2 "BRAINERS" ∧
      (c1ReplayedOf t [w0, w1, w2, w3, w4, w5]).accounts w3 "BRAINERS"
        = (c1OriginalOf t [w0, w1, w2, w3, w4, w5]).accounts w3 "BRAINERS" ∧
      (c1ReplayedOf t [w0, w1, w2, w3, w4, w5]).accounts w4 "BRAINERS"
        = (c1OriginalOf t [w0, w1, w2, w3, w4, w5]).accounts w4 "BRAINERS" ∧
      (c1ReplayedOf t [w0, w1, w2, w3, w4, w5]).accounts w5 "BRAINERS"
        = (c1OriginalOf t [w0, w1, w2, w3, w4, w5]).accounts w5 "BRAINERS") := by
  refine ⟨?_, ?_, ?_, ?_, ?_, ?_, ?_, ?_⟩ <;>
    simp [c1ReplayedOf, c1OriginalOf, reindex_blockchain, create_genesis_block,
      create_initial_distribution, distributions, genesisTransaction,
      apply_transaction, txToken, updBal, initialState,
      hz0, hz1, hz2, hz3, hz4, hz5,
      Ne.symm hz0, Ne.symm hz1, Ne.symm hz2, Ne.symm hz3, Ne.symm hz4, Ne.symm hz5,
      h01, h02, h03, h04, h05, h12, h13, h14, h15, h23, h24, h25, h34, h35, h45,
      Ne.symm h01, Ne.symm h02, Ne.symm h03, Ne.symm h04, Ne.symm h05,
      Ne.symm h12, Ne.symm h13, Ne.symm h14, Ne.symm h15,
      Ne.symm h23, Ne.symm h24, Ne.symm h25,
      Ne.symm h34, Ne.symm h35, Ne.symm h45]
  ring

/-- Claim C1 witness: the amended statement instantiated at the concrete
wallet addresses of `c1Wallets` and the initial supply `5·10⁹`: the six
treasury balances replay exactly, while the zero address replays to
`−(5·10⁹ × 9/10)` instead of 0. -/
theorem genesis_replay_balances_witness :
    (c1OriginalOf INITIAL_BRAINERS_SUPPLY c1Wallets).accounts zeroAddress "BRAINERS" = 0 ∧
    (c1ReplayedOf INITIAL_BRAINERS_SUPPLY c1Wallets).accounts zeroAddress "BRAINERS"
      = -(INITIAL_BRAINERS_SUPPLY * (9/10)) ∧
    (c1ReplayedOf INITIAL_BRAINERS_SUPPLY c1Wallets).accounts "W0" "BRAINERS"
      = (c1OriginalOf INITIAL_BRAINERS_SUPPLY c1Wallets).accounts "W0" "BRAINERS" := by
  have h := genesis_replay_balances INITIAL_BRAINERS_SUPPLY "W0" "W1" "W2" "W3" "W4" "W5"
    (by decide) (by decide) (by decide) (by decide) (by decide) (by decide)
    (by decide) (by decide) (by decide) (by decide) (by decide)
    (by decide) (by decide) (by decide) (by decide)
    (by decide) (by decide) (by decide)
    (by decide) (by decide) (by decide)
  exact ⟨h.1, h.2.1, h.2.2.1⟩

/-- Claim C3 counterexample: in a state whose mempool holds 1000 pending
transactions, the engine still computes the fee over its (always empty)
`pending_transactions` list and charges `1/1000`, not the
`clamp(MIN_FEE × (3/2)^1, MIN_FEE, MAX_FEE) = 3/2000` the claim demands at
mempool depth 1000. -/
theorem fee_ignores_mempool_depth :
    c3St.mempool.length = 1000 ∧
    calculate_transaction_fee c3St.pending_transactions = 1/1000 ∧
    clampSpec (MIN_FEE * (3/2) ^ (c3St.mempool.length / 1000)) MIN_FEE MAX_FEE = 3/2000 ∧
    calculate_transaction_fee c3St.pending_transactions
      ≠ clampSpec (MIN_FEE * (3/2) ^ (c3St.mempool.length / 1000)) MIN_FEE MAX_FEE := by
  have hlen : c3St.mempool.length = 1000 := by
    simp only [c3St, List.length_replicate]
  have hfee : calculate_transaction_fee c3St.pending_transactions = 1/1000 := by
    norm_num [c3St, initialState, calculate_transaction_fee, MIN_FEE, MAX_FEE]
  have hclamp : clampSpec (MIN_FEE * (3/2) ^ (c3St.mempool.length / 1000)) MIN_FEE MAX_FEE
      = 3/2000 := by
    rw [hlen]
    norm_num [clampSpec, MIN_FEE, MAX_FEE]
  refine ⟨hlen, hfee, hclamp, ?_⟩
  rw [hfee, hclamp]
  norm_num

end Ets
